import Mathlib

/-!
Shallow embedding of `src/main.py` (miguvideo-catalog): a single-threaded
batch ETL job that fetches paginated catalog metadata, deduplicates it
against a local CSV record, and persists a merged, sorted dataset per
category.  Python dictionaries produced by `extract_data` / read back from
CSV always carry the same six string fields, so records are embedded as a
structure of six strings; `dict.get(k, '')` on such a record is plain field
access.  The network, the filesystem and the clock are passed in explicitly
as oracle parameters.
-/

/-- The record type of the catalog: six string payload fields.  Mirrors the
dict built in `extract_data` (src/main.py lines 62-69) and the rows read
back by `load_existing_data`. -/
structure Record where
  pID : String
  name : String
  score : String
  year : String
  contentStyle : String
  contDisplayName : String
deriving DecidableEq, Repr

/-- The identity key `(item.get('year',''), item.get('pID',''))` used by
`merge_data` (src/main.py lines 112, 118). -/
def Record.key (r : Record) : String × String := (r.year, r.pID)

/-- The loop `for item in new_data: ...` of `merge_data` (src/main.py lines
117-121): `keys` is the running `existing_keys` set (embedded as a list, only
membership is used), `acc` is the running `merged_data` list. -/
def merge_loop (keys : List (String × String)) (acc : List Record) :
    List Record → List Record
  | [] => acc
  | r :: rest =>
    if r.key ∈ keys then merge_loop keys acc rest
    else merge_loop (r.key :: keys) (acc ++ [r]) rest

/-- Embedding of `merge_data` (src/main.py lines 107-123): seed the key set
with the keys of `existing_data`, start from a copy of `existing_data`, and
run the append loop over `new_data`. -/
def merge_data (existing_data new_data : List Record) : List Record :=
  merge_loop (existing_data.map Record.key) existing_data new_data

/-- Modelled from the spec sentence for claim C1 (refinement side): iterate
`fresh` in original order, appending exactly those records whose identity
key is neither present in `existing` nor carried by an earlier appended
fresh record. -/
def specAppended (existing : List Record) (fresh : List Record) : List Record :=
  fresh.foldl
    (fun appended r =>
      if r.key ∈ existing.map Record.key ∨ r.key ∈ appended.map Record.key
      then appended
      else appended ++ [r])
    []

/-- First-occurrence filter: keep a record iff its key is not in `seen` and
no earlier kept record claimed it.  Auxiliary bridge between `merge_loop`
and `specAppended`. -/
def keptGo (seen : List (String × String)) : List Record → List Record
  | [] => []
  | r :: rest =>
    if r.key ∈ seen then keptGo seen rest
    else r :: keptGo (r.key :: seen) rest

theorem merge_loop_eq_keptGo (fresh : List Record) :
    ∀ (keys : List (String × String)) (acc : List Record),
    merge_loop keys acc fresh = acc ++ keptGo keys fresh := by
  induction fresh with
  | nil => intro keys acc; simp [merge_loop, keptGo]
  | cons r rest ih =>
    intro keys acc
    by_cases h : r.key ∈ keys
    · simp [merge_loop, keptGo, h, ih]
    · simp [merge_loop, keptGo, h, ih]

theorem keptGo_congr (fresh : List Record) :
    ∀ (s₁ s₂ : List (String × String)),
    (∀ k, k ∈ s₁ ↔ k ∈ s₂) → keptGo s₁ fresh = keptGo s₂ fresh := by
  induction fresh with
  | nil => intro s₁ s₂ _; rfl
  | cons r rest ih =>
    intro s₁ s₂ hmem
    by_cases h : r.key ∈ s₁
    · have h₂ : r.key ∈ s₂ := (hmem _).mp h
      simp [keptGo, h, h₂, ih s₁ s₂ hmem]
    · have h₂ : r.key ∉ s₂ := fun hin => h ((hmem _).mpr hin)
      simp only [keptGo, h, h₂, if_neg]
      refine congrArg (r :: ·) (ih _ _ ?_)
      intro k
      simp [hmem k]

theorem specAppended_go (fresh : List Record) :
    ∀ (existingKeys : List (String × String)) (app : List Record),
    fresh.foldl
      (fun appended r =>
        if r.key ∈ existingKeys ∨ r.key ∈ appended.map Record.key
        then appended
        else appended ++ [r])
      app
    = app ++ keptGo (existingKeys ++ app.map Record.key) fresh := by
  induction fresh with
  | nil => intro ek app; simp [keptGo]
  | cons r rest ih =>
    intro ek app
    rw [List.foldl_cons]
    by_cases h : r.key ∈ ek ∨ r.key ∈ app.map Record.key
    · have hmem : r.key ∈ ek ++ app.map Record.key := List.mem_append.mpr h
      rw [if_pos h, ih]
      simp [keptGo, hmem]
    · have hmem : r.key ∉ ek ++ app.map Record.key :=
        fun hin => h (List.mem_append.mp hin)
      rw [if_neg h, ih]
      simp only [keptGo, hmem, if_neg, ite_false, List.map_append, List.map_cons,
        List.map_nil, List.append_assoc, List.singleton_append]
      refine congrArg (app ++ ·) ?_
      refine congrArg (r :: ·) (keptGo_congr rest _ _ ?_)
      intro k
      simp only [List.mem_append, List.mem_cons, List.mem_singleton]
      tauto

theorem specAppended_eq_keptGo (existing fresh : List Record) :
    specAppended existing fresh = keptGo (existing.map Record.key) fresh := by
  have h := specAppended_go fresh (existing.map Record.key) []
  simpa [specAppended] using h

/-- C1: `merge_data existing fresh` is `existing` (unchanged, in order)
followed by exactly those records of `fresh`, in original order, whose
identity key `(year, pID)` is neither present in `existing` nor carried by
an earlier appended fresh record; first occurrence wins, later duplicates
(including duplicates inside `fresh`) are dropped, and no record of
`existing` is removed, replaced or modified. -/
theorem merge_data_spec (existing fresh : List Record) :
    merge_data existing fresh = existing ++ specAppended existing fresh := by
  rw [merge_data, merge_loop_eq_keptGo, specAppended_eq_keptGo]

theorem keptGo_keys_nodup_disjoint (fresh : List Record) :
    ∀ seen : List (String × String),
    ((keptGo seen fresh).map Record.key).Nodup ∧
    ∀ k ∈ (keptGo seen fresh).map Record.key, k ∉ seen := by
  induction fresh with
  | nil => intro seen; simp [keptGo]
  | cons r rest ih =>
    intro seen
    by_cases h : r.key ∈ seen
    · simpa [keptGo, h] using ih seen
    · obtain ⟨hnd, hdisj⟩ := ih (r.key :: seen)
      refine ⟨?_, ?_⟩
      · simp only [keptGo, h, ite_false, List.map_cons, List.nodup_cons]
        exact ⟨fun hin => (hdisj _ hin) (List.mem_cons_self _ _), hnd⟩
      · intro k hk
        simp only [keptGo, h, ite_false, List.map_cons, List.mem_cons] at hk
        rcases hk with rfl | hk
        · exact h
        · exact fun hks => (hdisj _ hk) (List.mem_cons_of_mem _ hks)

theorem keptGo_find?_of_not_mem (fresh : List Record) :
    ∀ (seen : List (String × String)) (k : String × String), k ∉ seen →
    (keptGo seen fresh).find? (fun r => r.key == k)
      = fresh.find? (fun r => r.key == k) := by
  induction fresh with
  | nil => intro seen k _; rfl
  | cons r rest ih =>
    intro seen k hk
    by_cases h : r.key ∈ seen
    · have hne : (r.key == k) = false := by
        refine beq_eq_false_iff_ne.mpr ?_
        intro he
        exact hk (he ▸ h)
      simp only [keptGo, h, ite_true, List.find?_cons, hne]
      exact ih seen k hk
    · by_cases he : r.key = k
      · subst he
        simp [keptGo, h, List.find?_cons]
      · have hne : (r.key == k) = false := beq_eq_false_iff_ne.mpr he
        have hk' : k ∉ (r.key :: seen) := by
          intro hin
          rcases List.mem_cons.mp hin with rfl | hin
          · exact he rfl
          · exact hk hin
        simp only [keptGo, h, ite_false, List.find?_cons, hne]
        exact ih _ k hk'

/-- C2 (amended): provided the identity keys of `existing` are pairwise
distinct — as they are for any previously persisted `merge_data` output —
the output of `merge_data` has pairwise-distinct identity keys (at most one
record per key survives), and for every key the surviving record is the
`existing` record with that key when one exists, else the first-encountered
`fresh` record with that key. -/
theorem merge_data_dedup (existing fresh : List Record)
    (hex : (existing.map Record.key).Nodup) :
    ((merge_data existing fresh).map Record.key).Nodup ∧
    ∀ k : String × String,
      (merge_data existing fresh).find? (fun r => r.key == k)
        = (existing.find? (fun r => r.key == k)).or
            (fresh.find? (fun r => r.key == k)) := by
  rw [merge_data, merge_loop_eq_keptGo]
  obtain ⟨hnd, hdisj⟩ := keptGo_keys_nodup_disjoint fresh (existing.map Record.key)
  constructor
  · rw [List.map_append]
    exact List.Nodup.append hex hnd (fun k hk₁ hk₂ => (hdisj k hk₂) hk₁)
  · intro k
    rw [List.find?_append]
    by_cases hk : k ∈ existing.map Record.key
    · obtain ⟨r, hr, hrk⟩ := List.mem_map.mp hk
      have hsome : (existing.find? (fun r => r.key == k)).isSome := by
        rw [List.find?_isSome]
        exact ⟨r, hr, by simp [hrk]⟩
      obtain ⟨r', hr'⟩ := Option.isSome_iff_exists.mp hsome
      simp [hr']
    · have hnone : existing.find? (fun r => r.key == k) = none := by
        rw [List.find?_eq_none]
        intro x hx hpx
        exact hk (List.mem_map.mpr ⟨x, hx, by simpa using hpx⟩)
      rw [hnone, Option.none_or, Option.none_or]
      exact keptGo_find?_of_not_mem fresh _ k hk

/-- Sample record: pID "A", year "2001", old payload. -/
def recA : Record :=
  { pID := "A", name := "old", score := "8.0", year := "2001",
    contentStyle := "", contDisplayName := "mov" }

/-- Sample record: same identity key as `recA`, different payload. -/
def recA2 : Record :=
  { pID := "A", name := "new", score := "9.9", year := "2001",
    contentStyle := "", contDisplayName := "mov" }

/-- Sample record: pID "B", year "2001". -/
def recB : Record :=
  { pID := "B", name := "b", score := "", year := "2001",
    contentStyle := "", contDisplayName := "mov" }

/-- C2 counterexample: the claim quantifies over every pair of lists, but
when `existing` itself contains two records with the same identity key,
both survive in the merged output — `merge_data` never deduplicates inside
`existing`. -/
theorem merge_data_dedup_counterexample :
    ((merge_data [recA, recA2] []).filter
      (fun r => r.key == ("2001", "A"))).length = 2 := by
  decide

/-- Witness for `merge_data_dedup` at a concrete input: one existing record
with key ("2001","A"), fresh carrying an updated payload under the same key
plus a new key; the existing record survives unchanged. -/
theorem merge_data_dedup_witness :
    ((merge_data [recA] [recA2, recB]).map Record.key).Nodup ∧
    (merge_data [recA] [recA2, recB]).find?
      (fun r => r.key == ("2001", "A")) = some recA := by
  have h := merge_data_dedup [recA] [recA2, recB] (by decide)
  exact ⟨h.1, (h.2 ("2001", "A")).trans (by decide)⟩

/-- Python string comparison `a < b`: code-point lexicographic order,
embedded on the underlying character list (kernel-computable; it agrees
with the Mathlib order on `String` by `String.lt_iff_toList_lt`). -/
def strLt (a b : String) : Bool := decide (a.data < b.data)

/-- Python string comparison `a <= b` for a total order: `a < b` or
`a = b`. -/
def strLe (a b : String) : Bool := strLt a b || a == b

theorem strLt_iff {a b : String} : strLt a b = true ↔ a < b := by
  rw [strLt, decide_eq_true_iff]
  exact (@String.lt_iff_toList_lt a b).symm

theorem strLe_iff {a b : String} : strLe a b = true ↔ a ≤ b := by
  rw [strLe, Bool.or_eq_true, strLt_iff, beq_iff_eq]
  constructor
  · rintro (h | rfl)
    · exact le_of_lt h
    · exact le_refl _
  · intro h
    exact lt_or_eq_of_le h

/-- The comparator of `sort_data` (src/main.py line 127): Python tuple
comparison of the key `(x.get('year',''), x.get('pID',''))` — year compared
first, pID breaking ties. -/
def keyLe (a b : Record) : Bool :=
  strLt a.year b.year || (a.year == b.year && strLe a.pID b.pID)

/-- Embedding of `sort_data` (src/main.py lines 125-127).  Python `sorted`
is a stable comparison sort; all stable sorts with the same comparator
produce the same output list, so it is embedded as Lean's verified stable
merge sort with the comparator `keyLe`. -/
def sort_data (data : List Record) : List Record := data.mergeSort keyLe

theorem keyLe_iff {a b : Record} :
    keyLe a b = true ↔
      (a.year < b.year ∨ (a.year = b.year ∧ a.pID ≤ b.pID)) := by
  rw [keyLe, Bool.or_eq_true, Bool.and_eq_true, strLt_iff, strLe_iff, beq_iff_eq]

theorem keyLe_trans : ∀ a b c : Record, keyLe a b → keyLe b c → keyLe a c := by
  intro a b c hab hbc
  rw [keyLe_iff] at *
  rcases hab with h₁ | ⟨e₁, p₁⟩
  · rcases hbc with h₂ | ⟨e₂, p₂⟩
    · exact Or.inl (lt_trans h₁ h₂)
    · exact Or.inl (e₂ ▸ h₁)
  · rcases hbc with h₂ | ⟨e₂, p₂⟩
    · exact Or.inl (e₁ ▸ h₂)
    · exact Or.inr ⟨e₁.trans e₂, le_trans p₁ p₂⟩

theorem keyLe_total : ∀ a b : Record, keyLe a b || keyLe b a := by
  intro a b
  rw [Bool.or_eq_true, keyLe_iff, keyLe_iff]
  rcases lt_trichotomy a.year b.year with h | h | h
  · exact Or.inl (Or.inl h)
  · rcases le_total a.pID b.pID with hp | hp
    · exact Or.inl (Or.inr ⟨h, hp⟩)
    · exact Or.inr (Or.inr ⟨h.symm, hp⟩)
  · exact Or.inr (Or.inl h)

theorem keyLe_of_key_eq {a b : Record} (h : a.key = b.key) : keyLe a b = true := by
  have hy : a.year = b.year := congrArg Prod.fst h
  have hp : a.pID = b.pID := congrArg Prod.snd h
  rw [keyLe_iff]
  exact Or.inr ⟨hy, le_of_eq hp⟩

/-- Stability of `sort_data`: the records carrying any fixed identity key
appear in the output in exactly their input order. -/
theorem sort_data_filter_key (l : List Record) (k : String × String) :
    (sort_data l).filter (fun r => r.key == k)
      = l.filter (fun r => r.key == k) := by
  set p : Record → Bool := fun r => r.key == k with hp
  have hmemk : ∀ x ∈ l.filter p, x.key = k := by
    intro x hx
    have := (List.mem_filter.mp hx).2
    simpa [hp] using this
  have hpw : (l.filter p).Pairwise (fun a b => keyLe a b = true) := by
    apply List.pairwise_of_forall_mem_list
    intro a ha b hb
    exact keyLe_of_key_eq ((hmemk a ha).trans (hmemk b hb).symm)
  have hsub : List.Sublist (l.filter p) (sort_data l) :=
    List.sublist_mergeSort keyLe_trans keyLe_total hpw (List.filter_sublist l)
  have hfself : (l.filter p).filter p = l.filter p :=
    List.filter_eq_self.mpr (fun a ha => (List.mem_filter.mp ha).2)
  have hsub₂ : List.Sublist (l.filter p) ((sort_data l).filter p) := by
    have := hsub.filter p
    rwa [hfself] at this
  have hlen : ((sort_data l).filter p).length = (l.filter p).length :=
    ((List.mergeSort_perm l keyLe).filter p).length_eq
  exact (hsub₂.eq_of_length hlen.symm).symm

/-- C5 (amended): `sort_data` returns a permutation of its input that is
non-decreasing under lexicographic string comparison of `(year, pID)` for
every adjacent pair, and the sort is stable — records with equal keys keep
their relative input order.  The ordering is purely lexicographic on
strings, so a year of "19" sorts before a year of "2". -/
theorem sort_data_spec (l : List Record) :
    (sort_data l).Perm l ∧
    (sort_data l).Pairwise
      (fun a b => a.year < b.year ∨ (a.year = b.year ∧ a.pID ≤ b.pID)) ∧
    ∀ k : String × String,
      (sort_data l).filter (fun r => r.key == k)
        = l.filter (fun r => r.key == k) := by
  refine ⟨List.mergeSort_perm l keyLe, ?_, sort_data_filter_key l⟩
  exact (List.sorted_mergeSort keyLe_trans keyLe_total l).imp (fun h => keyLe_iff.mp h)

/-- Sample record with year "19". -/
def rec19 : Record :=
  { pID := "p", name := "", score := "", year := "19",
    contentStyle := "", contDisplayName := "" }

/-- Sample record with year "2". -/
def rec2 : Record :=
  { pID := "p", name := "", score := "", year := "2",
    contentStyle := "", contDisplayName := "" }

/-- C5 counterexample: the claim's example has the lexicographic quirk
backwards — under string comparison a year of "2" sorts after "19", not
before it: sorting the two-record list puts the "19" record first. -/
theorem sort_data_year_counterexample :
    rec2.year = "2" ∧ rec19.year = "19" ∧
    sort_data [rec2, rec19] = [rec19, rec2] := by
  refine ⟨rfl, rfl, ?_⟩
  refine List.Perm.eq_of_sorted ?_
    (List.sorted_mergeSort keyLe_trans keyLe_total _) (by decide)
    ((List.mergeSort_perm _ keyLe).trans (List.Perm.swap rec19 rec2 []))
  intro a b ha hb h₁ h₂
  have ha' : a = rec2 ∨ a = rec19 := by
    have := (List.mergeSort_perm [rec2, rec19] keyLe).subset ha
    simpa using this
  have hb' : b = rec19 ∨ b = rec2 := by simpa using hb
  rcases ha' with rfl | rfl <;> rcases hb' with rfl | rfl
  · exact absurd h₁ (by decide)
  · rfl
  · rfl
  · exact absurd h₂ (by decide)

/-- MAX_RETRIES constant (src/main.py line 20). -/
def MAX_RETRIES : Nat := 3

/-- Embedding of `fetch_data_with_retry` (src/main.py lines 22-47).  The
network is an oracle `attempt : Nat → Option α`: `attempt n` is the outcome
of the HTTP call made when `retry_count = n` (`none` models a raised
`requests.exceptions.RequestException`, `some` a parsed JSON body).  The
page number, category code and year only shape the request parameters and
are absorbed into the oracle.  The result is paired with the number of
fetch attempts performed, so the retry ceiling is observable. -/
def fetch_data_with_retry (attempt : Nat → Option α) (retry_count : Nat) :
    Option α × Nat :=
  match attempt retry_count with
  | some v => (some v, 1)
  | none =>
    if h : retry_count < MAX_RETRIES then
      let r := fetch_data_with_retry attempt (retry_count + 1)
      (r.1, r.2 + 1)
    else (none, 1)
termination_by MAX_RETRIES + 1 - retry_count
decreasing_by simp only [MAX_RETRIES] at *; omega

theorem fetch_retry_all_fail_aux {α : Type} (attempt : Nat → Option α)
    (hfail : ∀ n, attempt n = none) :
    ∀ (k rc : Nat), MAX_RETRIES - rc = k → rc ≤ MAX_RETRIES →
    fetch_data_with_retry attempt rc = (none, MAX_RETRIES + 1 - rc) := by
  intro k
  induction k with
  | zero =>
    intro rc hk hle
    have hrc : rc = MAX_RETRIES := by omega
    rw [fetch_data_with_retry, hfail rc]
    subst hrc
    simp
  | succ k ih =>
    intro rc hk _
    have hlt : rc < MAX_RETRIES := by omega
    rw [fetch_data_with_retry, hfail rc]
    simp only [hlt, dif_pos]
    rw [ih (rc + 1) (by omega) (by omega)]
    simp only
    refine congrArg (fun n => ((none : Option α), n)) ?_
    omega

/-- C3: with the default `retry_count = 0` and a transport that raises on
every attempt, `fetch_data_with_retry` performs exactly `MAX_RETRIES + 1 =
4` fetch attempts (one initial call plus three retries) and returns `none`
after the last one; the recursion is bounded by the retry budget, hence
total. -/
theorem fetch_data_with_retry_all_fail {α : Type} (attempt : Nat → Option α)
    (hfail : ∀ n, attempt n = none) :
    fetch_data_with_retry attempt 0 = (none, MAX_RETRIES + 1) ∧
    MAX_RETRIES + 1 = 4 :=
  ⟨by simpa using fetch_retry_all_fail_aux attempt hfail MAX_RETRIES 0 rfl (by omega),
   rfl⟩

/-- Witness: the always-failing transport at the element type `Record`,
with the default `retry_count = 0`, is attempted exactly 4 times. -/
theorem fetch_data_with_retry_all_fail_witness :
    fetch_data_with_retry (fun _ : Nat => (none : Option Record)) 0
      = (none, 4) := by
  have h := fetch_data_with_retry_all_fail
    (fun _ : Nat => (none : Option Record)) (fun _ => rfl)
  exact h.2 ▸ h.1

/-- One raw item object of a page response: the six fields that
`extract_data` reads, each possibly missing. -/
structure Item where
  pID : Option String
  name : Option String
  score : Option String
  year : Option String
  contentStyle : Option String
  contDisplayName : Option String
deriving DecidableEq, Repr

/-- The JSON shape read by `extract_data`: the status `code`, the total
count `resultNum` and the item list `body.data`, each possibly missing.
`json_data.get("body", \x7b\x7d).get("data", [])` yields `[]` whether
`body` or `body.data` is missing, so the two levels are collapsed into one
optional list. -/
structure ApiResponse where
  code : Option Int
  resultNum : Option Int
  data : Option (List Item)
deriving Repr

/-- Python `str.strip()`: drop leading and trailing whitespace characters,
embedded structurally on the character list. -/
def pyStrip (s : String) : String :=
  ⟨((s.data.dropWhile Char.isWhitespace).reverse.dropWhile
      Char.isWhitespace).reverse⟩

/-- The field-by-field mapping of one raw item into a `Record`
(src/main.py lines 62-69): each field defaults to `""` when missing;
`name`, `score`, `year`, `contentStyle` and `contDisplayName` pass through
`.strip()`, while `pID` is taken verbatim. -/
def itemToRecord (item : Item) : Record :=
  { pID := item.pID.getD ""
    name := pyStrip (item.name.getD "")
    score := pyStrip (item.score.getD "")
    year := pyStrip (item.year.getD "")
    contentStyle := pyStrip (item.contentStyle.getD "")
    contDisplayName := pyStrip (item.contDisplayName.getD "") }

/-- Embedding of `extract_data` (src/main.py lines 49-70): an absent
response, or one whose `code` is not 200, yields `([], 0)`; otherwise every
item of the (possibly missing) item list is mapped by `itemToRecord` and
returned with the reported `resultNum` (default 0).  The
`result_num > MAX_RESULTS` branch only prints a warning and is omitted. -/
def extract_data (json_data : Option ApiResponse) : List Record × Int :=
  match json_data with
  | none => ([], 0)
  | some jd =>
    if jd.code = some 200 then
      ((jd.data.getD []).map itemToRecord, jd.resultNum.getD 0)
    else ([], 0)

/-- C6 (amended): the full contract of `extract_data` — an absent response
or one whose status code is not 200 yields `([], 0)`; otherwise the
reported total count (default 0) is returned together with every item
mapped field-by-field into a record whose fields default to `""` when
missing, with `name`, `score`, `year`, `contentStyle` and
`contDisplayName` trimmed of surrounding whitespace and `pID` taken
verbatim; being a total Lean function, it never raises on malformed or
absent input. -/
theorem extract_data_contract :
    extract_data (none : Option ApiResponse) = ([], 0) ∧
    (∀ jd : ApiResponse, jd.code ≠ some 200 →
      extract_data (some jd) = ([], 0)) ∧
    (∀ jd : ApiResponse, jd.code = some 200 →
      (extract_data (some jd)).2 = jd.resultNum.getD 0 ∧
      (extract_data (some jd)).1
        = (jd.data.getD []).map (fun item =>
            { pID := item.pID.getD ""
              name := pyStrip (item.name.getD "")
              score := pyStrip (item.score.getD "")
              year := pyStrip (item.year.getD "")
              contentStyle := pyStrip (item.contentStyle.getD "")
              contDisplayName := pyStrip (item.contDisplayName.getD "") })) := by
  refine ⟨rfl, ?_, ?_⟩
  · intro jd h
    simp [extract_data, h]
  · intro jd h
    simp [extract_data, h, itemToRecord]

/-- Sample raw item whose `pID` carries surrounding whitespace. -/
def itemRaw : Item :=
  { pID := some " x ", name := some " n ", score := none,
    year := some "2001", contentStyle := none, contDisplayName := none }

/-- Sample successful page response holding `itemRaw`. -/
def respRaw : ApiResponse :=
  { code := some 200, resultNum := some 1, data := some [itemRaw] }

/-- Sample failed page response (HTTP-level error code in the body). -/
def respBad : ApiResponse :=
  { code := some 500, resultNum := some 7, data := some [itemRaw] }

/-- C6 counterexample: `pID` is not trimmed of surrounding whitespace —
`extract_data` maps an item with `pID = " x "` to a record whose `pID` is
still `" x "`, while the claim's trimming would demand `"x"` (the `name`
field, by contrast, is trimmed). -/
theorem extract_data_pID_counterexample :
    ((extract_data (some respRaw)).1.map Record.pID) = [" x "] ∧
    (" x " : String) ≠ "x" ∧
    ((extract_data (some respRaw)).1.map Record.name) = ["n"] := by
  refine ⟨by decide, by decide, by decide⟩

/-- Witness for `extract_data_contract` at concrete responses: a non-200
code yields `([], 0)` and a 200 response reports its `resultNum`. -/
theorem extract_data_contract_witness :
    extract_data (some respBad) = ([], 0) ∧
    (extract_data (some respRaw)).2 = 1 := by
  have h := extract_data_contract
  refine ⟨h.2.1 respBad (by decide), ?_⟩
  have h2 := (h.2.2 respRaw rfl).1
  simpa using h2

/-- PAGE_SIZE constant (src/main.py line 16). -/
def PAGE_SIZE : Int := 50

/-- Python `math.ceil(result_num / PAGE_SIZE)` (src/main.py line 155) on an
integer count: the ceiling of `result_num / 50`, computed with floor
division as `(result_num + 49).fdiv 50`. -/
def ceilPages (result_num : Int) : Int :=
  (result_num + PAGE_SIZE - 1).fdiv PAGE_SIZE

/-- The page list `range(2, total_pages + 1)` (src/main.py line 159). -/
def pageRange (total_pages : Int) : List Nat :=
  (List.range (total_pages - 1).toNat).map (fun i => i + 2)

/-- The page loop of `process_year_data` (src/main.py lines 159-169):
fetch each remaining page; a failed fetch is skipped, a nonempty
extraction extends the accumulator, an empty one only logs. -/
def year_loop (fetchPage : Nat → Option ApiResponse) :
    List Nat → List Record → List Record
  | [], acc => acc
  | page :: rest, acc =>
    match fetchPage page with
    | none => year_loop fetchPage rest acc
    | some jd =>
      let extracted := (extract_data (some jd)).1
      if extracted = [] then year_loop fetchPage rest acc
      else year_loop fetchPage rest (acc ++ extracted)

/-- Embedding of `process_year_data` (src/main.py lines 142-172) for one
(year, category) pair.  `fetchPage p` models the result of
`fetch_data_with_retry(p, category_code, year)` — the per-page outcome
after the Fetcher's internal retries.  The second component counts the
page fetches issued. -/
def process_year_data (fetchPage : Nat → Option ApiResponse) :
    List Record × Nat :=
  match fetchPage 1 with
  | none => ([], 1)
  | some jd =>
    let first := extract_data (some jd)
    if first.1 = [] then ([], 1)
    else
      let pages := pageRange (ceilPages first.2)
      (year_loop fetchPage pages first.1, 1 + pages.length)

theorem year_loop_eq_flatMap (fetchPage : Nat → Option ApiResponse) :
    ∀ (pages : List Nat) (acc : List Record),
    year_loop fetchPage pages acc
      = acc ++ pages.flatMap (fun p => (extract_data (fetchPage p)).1) := by
  intro pages
  induction pages with
  | nil => intro acc; simp [year_loop]
  | cons page rest ih =>
    intro acc
    rw [List.flatMap_cons]
    cases hp : fetchPage page with
    | none =>
      simp only [year_loop, hp, ih, extract_data, List.nil_append]
    | some jd =>
      by_cases he : (extract_data (some jd)).1 = []
      · simp [year_loop, hp, he, ih]
      · simp [year_loop, hp, he, ih]

theorem ceilPages_pos {N : Int} (hN : 1 ≤ N) : 1 ≤ ceilPages N := by
  rw [ceilPages, PAGE_SIZE, Int.fdiv_eq_ediv _ (by omega)]
  rw [Int.le_ediv_iff_mul_le (by omega)]
  omega

/-- C4: when the first page fetch succeeds with code 200, extracts at least
one record and reports a total count `N ≥ 1`, `process_year_data` issues
exactly `⌈N / 50⌉` page fetches — the pages numbered 1 through
`⌈N / PAGE_SIZE⌉` inclusive, `total_pages` being computed from the first
page's count — and returns the concatenation, in page order, of every
page's successfully extracted records; a page whose fetch returned `none`
or whose extraction is empty contributes nothing while the loop
continues. -/
theorem process_year_data_spec (fetchPage : Nat → Option ApiResponse)
    (N : Int) (hN : 1 ≤ N)
    (hne : (extract_data (fetchPage 1)).1 ≠ [])
    (hnum : (extract_data (fetchPage 1)).2 = N) :
    (process_year_data fetchPage).2 = (ceilPages N).toNat ∧
    (process_year_data fetchPage).1
      = (1 :: pageRange (ceilPages N)).flatMap
          (fun p => (extract_data (fetchPage p)).1) ∧
    ∀ p : Nat, p ∈ 1 :: pageRange (ceilPages N) ↔
      1 ≤ p ∧ (p : Int) ≤ ceilPages N := by
  have hpos := ceilPages_pos hN
  cases h1 : fetchPage 1 with
  | none => rw [h1] at hne; exact absurd rfl hne
  | some jd =>
    rw [h1] at hne hnum
    refine ⟨?_, ?_, ?_⟩
    · simp only [process_year_data, h1, hne, ite_false, if_neg]
      simp only [pageRange, List.length_map, List.length_range, hnum]
      omega
    · simp only [process_year_data, h1, hne, ite_false, if_neg]
      rw [year_loop_eq_flatMap, List.flatMap_cons, hnum, h1]
    · intro p
      simp only [List.mem_cons, pageRange, List.mem_map, List.mem_range]
      constructor
      · rintro (rfl | ⟨i, hi, rfl⟩) <;> omega
      · rintro ⟨h1p, h2p⟩
        by_cases hp1 : p = 1
        · exact Or.inl hp1
        · exact Or.inr ⟨p - 2, by omega, by omega⟩

/-- Sample raw item without whitespace. -/
def itemB : Item :=
  { pID := some "B", name := some "n", score := none,
    year := some "2001", contentStyle := none, contDisplayName := none }

/-- Sample page response reporting a total of 120 results. -/
def resp120 : ApiResponse :=
  { code := some 200, resultNum := some 120, data := some [itemB] }

/-- Simulated paginated API: pages 1 to 3 succeed, everything else fails. -/
def fetch120 : Nat → Option ApiResponse :=
  fun p => if p ≤ 3 then some resp120 else none

/-- Witness for `process_year_data_spec`: a simulated API reporting
`resultNum = 120` triggers exactly `⌈120 / 50⌉ = 3` page fetches. -/
theorem process_year_data_spec_witness :
    (process_year_data fetch120).2 = 3 := by
  have h := process_year_data_spec fetch120 120 (by decide) (by decide)
    (by decide)
  exact h.1.trans (by decide)

/-- Embedding of `load_existing_data` (src/main.py lines 93-105) over the
per-category file state, modelled at the record level (`none` = no file on
disk; `some rs` = a readable CSV holding the records `rs`): a missing file
yields `[]`. -/
def load_existing_data (file : Option (List Record)) : List Record :=
  file.getD []

/-- Embedding of `save_to_csv` (src/main.py lines 72-91) as an update of
the same file state.  An empty record list returns before touching the
filesystem; `writeOk = false` models an `IOError` raised while opening or
writing, which the function catches (printing a diagnostic) so the
previous state survives; otherwise the file is overwritten in full with
`data`. -/
def save_to_csv (writeOk : Bool) (data : List Record)
    (file : Option (List Record)) : Option (List Record) :=
  if data = [] then file
  else if writeOk then some data else file

theorem save_to_csv_writeFail (data : List Record)
    (file : Option (List Record)) : save_to_csv false data file = file := by
  by_cases h : data = [] <;> simp [save_to_csv, h]

/-- The fresh batch accumulated by `process_category` (src/main.py lines
183-191): every year of `[start_year, end_year]` in order contributes its
`process_year_data` records; the merge happens once at the end, not
per-year.  `fetchPage y p` models the page-`p` fetch for year `y`. -/
def freshBatch (fetchPage : Nat → Nat → Option ApiResponse)
    (start_year end_year : Nat) : List Record :=
  (List.range' start_year (end_year + 1 - start_year)).flatMap
    (fun y => (process_year_data (fetchPage y)).1)

/-- Embedding of `process_category` (src/main.py lines 174-201): load the
existing records, crawl the year range, merge once, sort, save.  The value
returned is the final state of the category's file. -/
def process_category (fetchPage : Nat → Nat → Option ApiResponse)
    (writeOk : Bool) (file : Option (List Record))
    (start_year end_year : Nat) : Option (List Record) :=
  let existing_data := load_existing_data file
  let all_new_data := freshBatch fetchPage start_year end_year
  let merged_data := merge_data existing_data all_new_data
  let sorted_data := sort_data merged_data
  save_to_csv writeOk sorted_data file

theorem merge_data_eq_nil_iff (existing fresh : List Record) :
    merge_data existing fresh = [] ↔ existing = [] ∧ fresh = [] := by
  rw [merge_data, merge_loop_eq_keptGo]
  constructor
  · intro h
    obtain ⟨h₁, h₂⟩ := List.append_eq_nil.mp h
    refine ⟨h₁, ?_⟩
    cases fresh with
    | nil => rfl
    | cons r rest =>
      subst h₁
      simp only [List.map_nil, keptGo, List.not_mem_nil, ite_false] at h₂
      exact (List.cons_ne_nil _ _ h₂).elim
  · rintro ⟨rfl, rfl⟩
    rfl

theorem sort_data_eq_nil_iff (l : List Record) : sort_data l = [] ↔ l = [] := by
  constructor
  · intro h
    have := List.mergeSort_perm l keyLe
    rw [sort_data] at h
    rw [h] at this
    exact (List.Perm.nil_eq this).symm
  · rintro rfl
    exact List.mergeSort_nil

/-- C7 (amended): provided the write raises no `IOError` and the merged
dataset is nonempty, a run of `process_category` fully overwrites the
category's prior file, leaving on disk exactly the sorted merge of the
previously persisted records with the freshly fetched batch. -/
theorem process_category_overwrites
    (fetchPage : Nat → Nat → Option ApiResponse)
    (file : Option (List Record)) (start_year end_year : Nat)
    (h : load_existing_data file ≠ [] ∨
         freshBatch fetchPage start_year end_year ≠ []) :
    process_category fetchPage true file start_year end_year
      = some (sort_data (merge_data (load_existing_data file)
          (freshBatch fetchPage start_year end_year))) := by
  have hm : merge_data (load_existing_data file)
      (freshBatch fetchPage start_year end_year) ≠ [] := by
    rw [Ne, merge_data_eq_nil_iff]
    tauto
  have hs : sort_data (merge_data (load_existing_data file)
      (freshBatch fetchPage start_year end_year)) ≠ [] := by
    rw [Ne, sort_data_eq_nil_iff]
    exact hm
  simp only [process_category, save_to_csv, hs, ite_false, if_neg, ite_true]

/-- Witness for `process_category_overwrites`: one previously persisted
record, every fetch failing — the file is rewritten with the sorted merge,
here that same single record. -/
theorem process_category_overwrites_witness :
    process_category (fun _ _ => none) true (some [recA]) 2000 2000
      = some [recA] := by
  have h := process_category_overwrites (fun _ _ => none) (some [recA])
    2000 2000 (Or.inl (by decide))
  rw [h]
  have hm : merge_data (load_existing_data (some [recA]))
      (freshBatch (fun _ _ => none) 2000 2000) = [recA] := by decide
  rw [hm]
  simp [sort_data]

/-- Simulated API used in the C7 counterexample: page 1 of every year
succeeds with one record (key ("2001","B")), later pages fail. -/
def fetchB : Nat → Nat → Option ApiResponse :=
  fun _ p => if p = 1 then
    some { code := some 200, resultNum := some 1, data := some [itemB] }
  else none

/-- C7 counterexample: the claim quantifies over every run, but (i) a run
whose write raises an `IOError` leaves the prior file content in place
instead of the sorted merge, and (ii) a run whose merged result is empty
(no prior file, no fetched data) writes nothing at all, so afterwards no
file holds the (empty) sorted merge. -/
theorem process_category_overwrite_counterexample :
    (process_category fetchB false (some [recA]) 2000 2000
       ≠ some (sort_data (merge_data (load_existing_data (some [recA]))
           (freshBatch fetchB 2000 2000)))) ∧
    (process_category (fun _ _ => none) true none 2000 2000
       ≠ some (sort_data (merge_data (load_existing_data none)
           (freshBatch (fun _ _ => none) 2000 2000)))) := by
  constructor
  · have hL : process_category fetchB false (some [recA]) 2000 2000
        = some [recA] := by
      simp only [process_category]
      exact save_to_csv_writeFail _ _
    rw [hL]
    have hm : merge_data (load_existing_data (some [recA]))
        (freshBatch fetchB 2000 2000) = [recA, itemToRecord itemB] := by decide
    rw [hm]
    rw [show sort_data [recA, itemToRecord itemB] = [recA, itemToRecord itemB]
      from List.mergeSort_of_sorted (by decide)]
    intro hcontra
    exact absurd (Option.some.inj hcontra) (by decide)
  · have hm : merge_data (load_existing_data none)
        (freshBatch (fun _ _ => none) 2000 2000) = [] := by decide
    rw [hm]
    have hL : process_category (fun _ _ => none) true none 2000 2000 = none := by
      simp only [process_category, hm]
      rw [show sort_data ([] : List Record) = [] from List.mergeSort_nil]
      rfl
    rw [hL, show sort_data ([] : List Record) = [] from List.mergeSort_nil]
    intro hcontra
    cases hcontra

/-- C10: save failures never propagate and never touch the file — an empty
record list returns without writing, a raised `IOError` is caught so the
prior file survives, and consequently a `process_category` run whose write
fails completes normally with its fetched data unsaved and the file
unchanged. -/
theorem save_to_csv_failure_spec :
    (∀ (writeOk : Bool) (file : Option (List Record)),
      save_to_csv writeOk [] file = file) ∧
    (∀ (data : List Record) (file : Option (List Record)),
      save_to_csv false data file = file) ∧
    (∀ (fetchPage : Nat → Nat → Option ApiResponse)
       (file : Option (List Record)) (start_year end_year : Nat),
      process_category fetchPage false file start_year end_year = file) := by
  refine ⟨?_, ?_, ?_⟩
  · intro writeOk file
    simp [save_to_csv]
  · intro data file
    exact save_to_csv_writeFail data file
  · intro fetchPage file start_year end_year
    simp only [process_category]
    exact save_to_csv_writeFail _ _

/-- Quoting predicate of CPython's csv writer under the default
QUOTE_MINIMAL: a field is quoted iff it contains the delimiter, the quote
character, the escape character (unset here), or a character of the
configured line terminator.  `save_to_csv` sets `lineterminator = "\n"`
(src/main.py line 86), so a bare carriage return does not trigger quoting
and is written into the file raw. -/
def needsQuoting (s : String) : Bool :=
  s.data.any (fun c => c == ',' || c == '"' || c == '\n')

/-- Doubling of embedded quote characters inside a quoted csv field. -/
def escQuotes : List Char → List Char
  | [] => []
  | c :: rest =>
    if c == '"' then '"' :: '"' :: escQuotes rest else c :: escQuotes rest

/-- The character stream the csv writer emits for one field value. -/
def csvFieldChars (s : String) : List Char :=
  if needsQuoting s then '"' :: (escQuotes s.data ++ ['"']) else s.data

/-- The characters of one data line before its terminator: the six record
fields in the fixed `fieldnames` order of src/main.py lines 84-86,
comma-separated. -/
def csvLineChars (r : Record) : List Char :=
  csvFieldChars r.contDisplayName ++ (',' :: (csvFieldChars r.year
    ++ (',' :: (csvFieldChars r.pID ++ (',' :: (csvFieldChars r.name
    ++ (',' :: (csvFieldChars r.score
    ++ (',' :: csvFieldChars r.contentStyle)))))))))

/-- One full data row: the line plus the configured
`lineterminator = "\n"` (src/main.py line 86). -/
def csvRow (r : Record) : List Char := csvLineChars r ++ ['\n']

/-- The header row text written by `writer.writeheader()`: the fieldnames
joined by commas. -/
def csvHeaderChars : List Char :=
  "contDisplayName,year,pID,name,score,contentStyle".data

/-- The full character content of a dataset file written by `save_to_csv`
for a record list: the header row then one row per record, every row
newline-terminated.  The file handle is opened with `encoding='utf-8'` and
`newline=''`, so exactly these characters are UTF-8 encoded to disk. -/
def csvContent (data : List Record) : List Char :=
  csvHeaderChars ++ '\n' :: (data.map csvRow).flatten

/-- Carriage-return check on a rendered row: true iff the character just
before the final one is CR, as in a CRLF-terminated row. -/
def hasTrailingCR (l : List Char) : Bool :=
  l.dropLast.getLast? == some '\r'

theorem csvFieldChars_getLast_ne_cr (s : String) (hs : '\r' ∉ s.data) :
    (csvFieldChars s).getLast? ≠ some '\r' := by
  rw [csvFieldChars]
  by_cases h : needsQuoting s = true
  · rw [if_pos h]
    rw [show ('"' :: (escQuotes s.data ++ ['"']))
        = ('"' :: escQuotes s.data) ++ ['"'] by simp]
    rw [List.getLast?_concat]
    decide
  · rw [if_neg h]
    intro hc
    exact hs (List.mem_of_getLast?_eq_some hc)

theorem append_getLast_ne_cr {A B : List Char}
    (hA : A.getLast? ≠ some '\r') (hB : B.getLast? ≠ some '\r') :
    (A ++ B).getLast? ≠ some '\r' := by
  rw [List.getLast?_append]
  cases hb : B.getLast? with
  | none => rw [Option.none_or]; exact hA
  | some c => rw [Option.or_some]; exact hb ▸ hB

theorem append_right_getLast_ne_cr {A B : List Char} (hne : B ≠ [])
    (hB : B.getLast? ≠ some '\r') : (A ++ B).getLast? ≠ some '\r' := by
  rw [List.getLast?_append]
  cases hb : B.getLast? with
  | none => exact absurd (List.getLast?_eq_none_iff.mp hb) hne
  | some c => rw [Option.or_some]; exact hb ▸ hB

theorem cons_comma_getLast_ne_cr {B : List Char}
    (hB : B.getLast? ≠ some '\r') : (',' :: B).getLast? ≠ some '\r' := by
  rw [show (',' :: B) = [','] ++ B from rfl]
  exact append_getLast_ne_cr (by decide) hB

theorem csvLineChars_getLast_ne_cr (r : Record)
    (hcs : '\r' ∉ r.contentStyle.data) :
    (csvLineChars r).getLast? ≠ some '\r' := by
  rw [csvLineChars]
  refine append_right_getLast_ne_cr (List.cons_ne_nil _ _) ?_
  refine cons_comma_getLast_ne_cr ?_
  refine append_right_getLast_ne_cr (List.cons_ne_nil _ _) ?_
  refine cons_comma_getLast_ne_cr ?_
  refine append_right_getLast_ne_cr (List.cons_ne_nil _ _) ?_
  refine cons_comma_getLast_ne_cr ?_
  refine append_right_getLast_ne_cr (List.cons_ne_nil _ _) ?_
  refine cons_comma_getLast_ne_cr ?_
  refine append_right_getLast_ne_cr (List.cons_ne_nil _ _) ?_
  exact cons_comma_getLast_ne_cr (csvFieldChars_getLast_ne_cr _ hcs)

/-- C8 (amended): every dataset file rendered for `save_to_csv` begins with
the exact header row `contDisplayName,year,pID,name,score,contentStyle`,
each subsequent row lists the record's (csv-escaped) fields in exactly that
column order, and every row — header included — is terminated by a bare
newline; a data row additionally carries no trailing carriage return
provided its last column, `contentStyle`, contains no carriage return
(fields bearing a bare CR are written raw, since with
`lineterminator = "\n"` the writer does not quote on CR).  UTF-8 byte
encoding of these characters is performed verbatim by the file handle. -/
theorem csv_format_spec (data : List Record) :
    csvContent data
      = ("contDisplayName,year,pID,name,score,contentStyle".data)
          ++ '\n' :: (data.map csvRow).flatten ∧
    (∀ r : Record, csvRow r
      = csvFieldChars r.contDisplayName ++ (',' :: (csvFieldChars r.year
          ++ (',' :: (csvFieldChars r.pID ++ (',' :: (csvFieldChars r.name
          ++ (',' :: (csvFieldChars r.score
          ++ (',' :: csvFieldChars r.contentStyle))))))))) ++ ['\n']) ∧
    (∀ r : Record, (csvRow r).getLast? = some '\n') ∧
    (∀ r : Record, '\r' ∉ r.contentStyle.data →
      hasTrailingCR (csvRow r) = false) ∧
    ((csvHeaderChars ++ ['\n']).getLast? = some '\n' ∧
      hasTrailingCR (csvHeaderChars ++ ['\n']) = false) := by
  refine ⟨rfl, fun r => rfl, fun r => List.getLast?_concat _, ?_, ?_, ?_⟩
  · intro r hcs
    rw [hasTrailingCR, csvRow, List.dropLast_concat]
    exact beq_eq_false_iff_ne.mpr (csvLineChars_getLast_ne_cr r hcs)
  · exact List.getLast?_concat _
  · decide

/-- Sample record whose last column carries a bare carriage return. -/
def recCR : Record :=
  { pID := "P", name := "", score := "", year := "2001",
    contentStyle := "abc\r", contDisplayName := "m" }

/-- C8 counterexample: with the source's `lineterminator = "\n"` the csv
writer does not quote a field for containing a carriage return, so a record
whose `contentStyle` ends in CR is written raw and its row ends in CR-LF —
a trailing carriage return, against the claim.  The third conjunct shows
the CR-bearing field is indeed rendered verbatim, unquoted. -/
theorem csv_trailing_cr_counterexample :
    hasTrailingCR (csvRow recCR) = true ∧
    (csvRow recCR).getLast? = some '\n' ∧
    csvFieldChars recCR.contentStyle = recCR.contentStyle.data := by
  refine ⟨by decide, by decide, by decide⟩

/-- Witness for `csv_format_spec` at a concrete CR-free record: its row has
no trailing carriage return and ends in a bare newline. -/
theorem csv_format_spec_witness :
    hasTrailingCR (csvRow recA) = false ∧
    (csvRow recA).getLast? = some '\n' := by
  have h := csv_format_spec [recA]
  exact ⟨h.2.2.2.1 recA (by decide), h.2.2.1 recA⟩

/-- One entry of `contDisplayTypeList` in the catalog file: the `name` and
`type` keys read by the dict comprehension of `load_categories`, each
possibly missing. -/
structure CatalogItem where
  name : Option String
  type : Option String
deriving DecidableEq, Repr

/-- The value bound to the `contDisplayTypeList` key: either not a list at
all (iterating raises `TypeError`) or a list of entries. -/
inductive CatalogListVal
  | nonList
  | list (items : List CatalogItem)
deriving DecidableEq, Repr

/-- The root of a successfully parsed catalog JSON document: either not a
dict (`.get` raises `AttributeError`) or a dict with the
`contDisplayTypeList` key possibly absent (absent defaults to `[]`). -/
inductive CatalogRoot
  | nonDict
  | dict (contDisplayTypeList : Option CatalogListVal)
deriving DecidableEq, Repr

/-- The observable state of `catalog.json` as seen by `load_categories`:
absent (`FileNotFoundError`), present but not parseable as JSON
(`json.JSONDecodeError`), or parsed into a root value. -/
inductive CatalogFile
  | absent
  | badJson
  | goodJson (root : CatalogRoot)
deriving DecidableEq, Repr

/-- Embedding of `load_categories` (src/main.py lines 129-140).  Only
`FileNotFoundError` and `json.JSONDecodeError` are caught (both yield the
empty mapping); a document of the wrong shape raises out of the function,
modelled as `Except.error` naming the Python exception.  A successful run
returns the name-to-type association pairs of the dict comprehension in
iteration order. -/
def load_categories : CatalogFile → Except String (List (String × String))
  | .absent => .ok []
  | .badJson => .ok []
  | .goodJson .nonDict => .error "AttributeError"
  | .goodJson (.dict none) => .ok []
  | .goodJson (.dict (some .nonList)) => .error "TypeError"
  | .goodJson (.dict (some (.list items))) =>
    items.mapM (fun it =>
      match it.name, it.type with
      | some n, some t => Except.ok (n, t)
      | _, _ => Except.error "KeyError")

/-- Outcome of one `main` invocation, as far as the catalog file decides
it. -/
inductive MainOutcome
  | crashed
  | abortedNoCategories
  | ranCategories (names : List String)
deriving DecidableEq, Repr

/-- Embedding of the top of `main` (src/main.py lines 203-207): an
exception from `load_categories` propagates (crash before any category); an
empty mapping prints a diagnostic and returns; otherwise the categories are
processed in insertion order (duplicate names collapse as in a Python
dict). -/
def main_run (cf : CatalogFile) : MainOutcome :=
  match load_categories cf with
  | .error _ => .crashed
  | .ok cats =>
    if cats.isEmpty then .abortedNoCategories
    else .ranCategories ((cats.map Prod.fst).dedup)

/-- C9 (amended): for a catalog file that is absent or not parseable as
JSON, `load_categories` returns an empty mapping without raising, and
`main` then aborts the whole run — before processing any category — after
printing a diagnostic. -/
theorem load_categories_absent_or_unparseable (cf : CatalogFile)
    (h : cf = CatalogFile.absent ∨ cf = CatalogFile.badJson) :
    load_categories cf = Except.ok [] ∧
    main_run cf = MainOutcome.abortedNoCategories := by
  rcases h with rfl | rfl <;> exact ⟨rfl, rfl⟩

/-- Witness for `load_categories_absent_or_unparseable` at the absent
file. -/
theorem load_categories_absent_witness :
    load_categories CatalogFile.absent = Except.ok [] ∧
    main_run CatalogFile.absent = MainOutcome.abortedNoCategories :=
  load_categories_absent_or_unparseable CatalogFile.absent (Or.inl rfl)

/-- C9 counterexample: a catalog file that parses as JSON but has the wrong
shape is malformed configuration, yet `load_categories` raises instead of
returning an empty mapping — a non-dict root raises `AttributeError`, and
an entry missing the `name`/`type` keys raises `KeyError` (the run still
dies before any category, but not via the claimed clean abort). -/
theorem load_categories_malformed_counterexample :
    load_categories (CatalogFile.goodJson CatalogRoot.nonDict)
      = Except.error "AttributeError" ∧
    main_run (CatalogFile.goodJson CatalogRoot.nonDict)
      = MainOutcome.crashed ∧
    load_categories (CatalogFile.goodJson (CatalogRoot.dict
        (some (CatalogListVal.list [{ name := none, type := some "x" }]))))
      = Except.error "KeyError" :=
  ⟨rfl, rfl, rfl⟩
